import Mathlib

/-!
# hexya `generate` command: staging and pipeline orchestration

A shallow embedding of `cmd/generate.go`: the functions `cleanPoolDir` and
`runGenerate`, over an explicit model of the file system and an explicit log
of the calls made to the collaborators (`go/build`, `x/tools/go/loader`,
`hexya/tools/generate`).

Modelling conventions
* Paths are Go strings with the Unix separator. The operating system resolves
  a path lexically against the working directory (no symbolic links).
* The file system is a map from resolved paths to nodes, together with a list
  of locked entries: an entry that is locked cannot be unlinked or
  overwritten (permission denied). This is what makes `os.RemoveAll` and the
  placeholder write able to fail.
* Collaborators whose code is outside `cmd/generate.go` are parameters of the
  run (`Env`), except `generate.CreateFileFromTemplate`, which is modelled.
-/

namespace Hexya

/-! ## Paths -/

/-- A resolved absolute path: the list of its components from the root. -/
abbrev Key := List String

/-- Split a character list at every `/` (like `strings.Split(s, "/")`). -/
def splitSlash : List Char → List (List Char)
  | [] => [[]]
  | c :: cs =>
    if c = '/' then [] :: splitSlash cs
    else match splitSlash cs with
      | [] => [[c]]
      | x :: xs => (c :: x) :: xs

/-- The components of a path string, empty components included. -/
def components (p : String) : List String :=
  (splitSlash p.data).map String.mk

/-- Go `filepath.IsAbs` on Unix: the path starts with a slash. -/
def isAbs (p : String) : Bool :=
  match p.data with
  | c :: _ => c == '/'
  | [] => false

/-- Join components with a single slash between them. -/
def joinSlash : List String → String
  | [] => ""
  | [x] => x
  | x :: y :: rest => x ++ "/" ++ joinSlash (y :: rest)

/-- One step of Go `filepath.Clean` over the stack of kept components
(most recent first). -/
def cleanStep (rooted : Bool) (stack : List String) (c : String) : List String :=
  if c = "" ∨ c = "." then stack
  else if c = ".." then
    match stack with
    | [] => if rooted then [] else [".."]
    | t :: rest => if t = ".." then ".." :: t :: rest else rest
  else c :: stack

/-- Go `filepath.Clean` on Unix: collapse repeated separators, drop `.`
components, resolve inner `..` components, drop `..` at the root; the empty
path becomes `.`. -/
def filepathClean (p : String) : String :=
  if p = "" then "."
  else
    let out := ((components p).foldl (cleanStep (isAbs p)) []).reverse
    if isAbs p then "/" ++ joinSlash out
    else if out = [] then "."
    else joinSlash out

/-- Go `filepath.Join`: empty elements are ignored, the rest is joined with
the separator and cleaned; all-empty input gives the empty string. -/
def filepathJoin (elems : List String) : String :=
  match elems.filter (fun e => e ≠ "") with
  | [] => ""
  | es => filepathClean (joinSlash es)

/-- One step of the operating system's lexical path resolution over the stack
of components reached so far (most recent first). -/
def stepComp (stack : List String) (c : String) : List String :=
  if c = "" ∨ c = "." then stack
  else if c = ".." then stack.tail
  else c :: stack

/-- Resolve a path string against the working directory `cwd`. -/
def resolve (cwd : Key) (p : String) : Key :=
  ((components p).foldl stepComp (if isAbs p then [] else cwd.reverse)).reverse

/-- The string form of a resolved path. -/
def renderKey (k : Key) : String := "/" ++ joinSlash k

/-! ## File system -/

/-- A file-system node. -/
inductive Node where
  | file (content : String)
  | dir
  deriving DecidableEq, Repr

/-- The file-system state. `nodes` gives the node at each resolved path,
`locked` lists the entries that cannot be unlinked or overwritten, `cwd` is
the working directory of the process. -/
@[ext]
structure FS where
  nodes : Key → Option Node
  locked : List Key
  cwd : Key

/-- The entry exists and is a regular file. -/
def isFile : Option Node → Bool
  | some (Node.file _) => true
  | _ => false

namespace FS

/-- The node at `p`; the root always exists and is a directory. -/
def lookup (fs : FS) (p : Key) : Option Node :=
  if p = [] then some Node.dir else fs.nodes p

/-- An entry is pinned when it cannot be removed: it is the root, or it is
(an ancestor of) an existing locked entry. -/
def pinned (fs : FS) (p : Key) : Prop :=
  p = [] ∨ ∃ q ∈ fs.locked, p <+: q ∧ (fs.lookup q).isSome = true

instance (fs : FS) (p : Key) : Decidable (fs.pinned p) :=
  inferInstanceAs (Decidable (p = [] ∨ ∃ q ∈ fs.locked, p <+: q ∧ (fs.lookup q).isSome = true))

/-- Every path component leading to `k` (and `k` itself) is a directory. -/
def allDirs (fs : FS) (k : Key) : Prop :=
  ∀ a ∈ k.inits, fs.lookup a = some Node.dir

instance (fs : FS) (k : Key) : Decidable (fs.allDirs k) :=
  inferInstanceAs (Decidable (∀ a ∈ k.inits, fs.lookup a = some Node.dir))

/-- Some path component leading to `k` (or `k` itself) is a regular file. -/
def fileOnPath (fs : FS) (k : Key) : Prop :=
  ∃ a ∈ k.inits, isFile (fs.lookup a) = true

instance (fs : FS) (k : Key) : Decidable (fs.fileOnPath k) :=
  inferInstanceAs (Decidable (∃ a ∈ k.inits, isFile (fs.lookup a) = true))

end FS

/-! ## Operating-system calls -/

/-- The path is `.` or ends in `/.`: Go `os.RemoveAll` rejects such a path. -/
def endsWithDot (path : String) : Bool :=
  match path.data.reverse with
  | ['.'] => true
  | '.' :: '/' :: _ => true
  | _ => false

/-- Go `os.RemoveAll`: removes `path` and everything below it, as far as it
can. The empty path is accepted and does nothing; a path ending in a dot is
an error; a missing path is no error. Pinned entries stay and make the call
report an error. -/
def osRemoveAll (path : String) (fs : FS) : FS × Option String :=
  if path = "" then (fs, none)
  else if endsWithDot path then (fs, some "invalid argument")
  else
    let k := resolve fs.cwd path
    ({ fs with nodes := fun p => if k <+: p ∧ ¬ fs.pinned p then none else fs.nodes p },
     if fs.pinned k then some "permission denied" else none)

/-- Go `os.MkdirAll`: creates the directory and all missing parents; an
existing directory is fine; a regular file on the way is an error and nothing
is created; the empty path is an error. -/
def osMkdirAll (path : String) (fs : FS) : FS × Option String :=
  if path = "" then (fs, some "no such file or directory")
  else
    let k := resolve fs.cwd path
    if fs.fileOnPath k then (fs, some "not a directory")
    else ({ fs with nodes := fun p => if p <+: k then some Node.dir else fs.nodes p }, none)

/-- Go `os.WriteFile`: creates or truncates the file. The parent and all its
ancestors must be directories, the target must not be a directory, and an
existing locked target cannot be overwritten. -/
def osWriteFile (path : String) (content : String) (fs : FS) : FS × Option String :=
  let k := resolve fs.cwd path
  if ¬ fs.allDirs k.dropLast then (fs, some "no such file or directory")
  else if fs.lookup k = some Node.dir then (fs, some "is a directory")
  else if k ∈ fs.locked ∧ (fs.lookup k).isSome = true then (fs, some "permission denied")
  else ({ fs with nodes := fun p => if p = k then some (Node.file content) else fs.nodes p }, none)

/-- Go `os.Getwd`, with the working directory taken to be available. -/
def osGetwd (fs : FS) : String := renderKey fs.cwd

/-- Go `filepath.Abs`: an absolute path is cleaned, a relative one is joined
to the working directory. The error result, which `runGenerate` discards,
comes from `os.Getwd` only and is therefore always nil here. -/
def filepathAbs (fs : FS) (path : String) : String × Option String :=
  if isAbs path then (filepathClean path, none)
  else (filepathJoin [osGetwd fs, path], none)

/-! ## Collaborators and the observable state of a run -/

/-- The fields of `build.Package` that `runGenerate` reads. -/
structure Package where
  Name : String
  ImportPath : String
  Imports : List String
  deriving DecidableEq, Repr

/-- The calls a run makes, in the order it makes them, each with the result
that decides how the run goes on. `P` is the type of `loader.Program`. -/
inductive Event (P : Type) where
  | removeAll (path : String) (err : Option String)
  | mkdirAll (path : String) (perm : Nat) (err : Option String)
  | createFile (fileName : String) (content : String) (err : Option String)
  | print (text : String)
  | importDir (dir : String) (mode : Nat) (err : Option String)
  | confImport (path : String)
  | confLoad (allowErrors : Bool) (imports : List String) (err : Option String)
  | createPool (program : Option P) (dir : String)
  | exit (code : Nat)
  deriving DecidableEq, Repr

/-- The state a run acts on: the file system, the log of calls made so far,
and the package-level variable `importedPaths`. -/
structure World (P : Type) where
  fs : FS
  log : List (Event P)
  importedPaths : List String

/-- Append an event to the log. -/
def World.emit {P : Type} (w : World P) (e : Event P) : World P :=
  { w with log := w.log ++ [e] }

/-- How a run ends: normal return, an unrecovered panic, or `os.Exit`. -/
inductive Outcome where
  | returned
  | panicked (msg : String)
  | exited (code : Nat)
  deriving DecidableEq, Repr

/-- The exit status of the process: 0 after a normal return, 2 after an
unrecovered panic (Go runtime), the given code after `os.Exit`. -/
def Outcome.exitStatus : Outcome → Nat
  | Outcome.returned => 0
  | Outcome.panicked _ => 2
  | Outcome.exited c => c

/-- The collaborators of `runGenerate` that live outside `cmd/generate.go`:
the framework root `generate.HexyaDir`, `build.ImportDir`, the loader
(`conf.Load`, as a function of the `AllowErrors` flag and of the import paths
given to `conf.Import`, in call order), and `generate.CreatePool`, which may
change the file system and may panic. -/
structure Env (P : Type) where
  HexyaDir : String
  importDir : FS → String → Package × Option String
  load : FS → Bool → List String → Option P × Option String
  createPool : Option P → String → FS → FS × Option String

/-- The command-line flags `--empty` and `--test`. -/
structure Flags where
  generateEmptyPool : Bool
  testedModule : String
  deriving DecidableEq, Repr

/-! ## The source: constants, `cleanPoolDir`, `runGenerate` -/

/-- The name of the generated pool directory, relative to the hexya root. -/
def PoolDirRel : String := "pool"

/-- The name of the temporary go file in the pool directory. -/
def TempEmpty : String := "temp.go"

/-- The text of `emptyPoolTemplate`. It holds no template action, so
executing the template yields this text verbatim. -/
def emptyPoolTemplate : String :=
  "\n// This file is autogenerated by hexya-generate\n// DO NOT MODIFY THIS FILE - ANY CHANGES WILL BE OVERWRITTEN\n\npackage pool\n"

/-- Modelled from the spec: `generate.CreateFileFromTemplate` is not part of
`cmd/generate.go`. Following the Directory Stager's contract (it "writes
exactly one placeholder source file" and "any filesystem error ... is fatal
to the run"), it writes the text of the template to `fileName` and panics
when the write fails. The result is the new state and the panic, if any. -/
def createFileFromTemplate {P : Type} (fileName : String) (tmpl : String) (w : World P) :
    World P × Option String :=
  let r := osWriteFile fileName tmpl w.fs
  ({ w with fs := r.1 }.emit (Event.createFile fileName tmpl r.2),
   r.2.map (fun e => "Error while saving generated source file: " ++ e))

/-- `cleanPoolDir` of the source: `os.RemoveAll` and `os.MkdirAll`, both with
their error results dropped, then the placeholder file. -/
def cleanPoolDir {P : Type} (dirName : String) (w : World P) : World P × Option String :=
  let r1 := osRemoveAll dirName w.fs
  let w1 := { w with fs := r1.1 }.emit (Event.removeAll dirName r1.2)
  let r2 := osMkdirAll dirName w1.fs
  let w2 := { w1 with fs := r2.1 }.emit (Event.mkdirAll dirName 0o755 r2.2)
  createFileFromTemplate (filepathJoin [dirName, TempEmpty]) emptyPoolTemplate w2

/-- Feed the import paths to `conf.Import`, one call per entry, in order. -/
def importAll {P : Type} (paths : List String) (w : World P) : World P :=
  paths.foldl (fun w ip => w.emit (Event.confImport ip)) w

/-- `runGenerate` of the source. -/
def runGenerate {P : Type} (env : Env P) (flags : Flags) (projectDir : String)
    (w : World P) : World P × Outcome :=
  let poolDir := filepathJoin [env.HexyaDir, PoolDirRel]
  match cleanPoolDir poolDir w with
  | (w, some msg) => (w, Outcome.panicked msg)
  | (w, none) =>
    if flags.generateEmptyPool then (w, Outcome.returned)
    else
      let w := w.emit (Event.print "Hexya Generate\n------------\n")
      let w := w.emit (Event.print
        ("Detected Hexya root directory at " ++ env.HexyaDir ++ ".\n"))
      let targetDir :=
        if flags.testedModule ≠ "" then (filepathAbs w.fs flags.testedModule).1
        else filepathJoin [projectDir, "config"]
      let w := w.emit (Event.print ("target dir " ++ targetDir ++ "\n"))
      let r := env.importDir w.fs targetDir
      let w := w.emit (Event.importDir targetDir 0 r.2)
      match r.2 with
      | some err => (w, Outcome.panicked ("Error while importing project: " ++ err))
      | none =>
        let importPack := r.1
        let w := w.emit (Event.print ("Project package found: " ++ importPack.Name ++ ".\n"))
        let paths :=
          if flags.testedModule ≠ "" then [importPack.ImportPath] else importPack.Imports
        let w := { w with importedPaths := paths }
        let w := importAll paths w
        let w := w.emit (Event.print
          "Loading program...\nWarnings may appear here, just ignore them if hexya-generate doesn't crash.\n")
        let l1 := env.load w.fs true paths
        let w := w.emit (Event.confLoad true paths l1.2)
        let program := l1.1
        let w := w.emit (Event.print "Ok\n")
        let w := w.emit (Event.print "Generating pool...")
        let g := env.createPool program poolDir w.fs
        let w := { w with fs := g.1 }.emit (Event.createPool program poolDir)
        match g.2 with
        | some msg => (w, Outcome.panicked msg)
        | none =>
          let w := w.emit (Event.print "Ok\n")
          let w := w.emit (Event.print "Checking the generated code...")
          let l2 := env.load w.fs false paths
          let w := w.emit (Event.confLoad false paths l2.2)
          match l2.2 with
          | some err =>
            let w := w.emit (Event.print ("FAIL " ++ err ++ "\n"))
            (w.emit (Event.exit 1), Outcome.exited 1)
          | none =>
            let w := w.emit (Event.print "Ok\n")
            (w.emit (Event.print "Pool generated successfully\n"), Outcome.returned)

/-! ## Notions used in the statements -/

/-- The file system after the first call of `cleanPoolDir`. -/
def afterRemove (d : String) (fs : FS) : FS := (osRemoveAll d fs).1

/-- The file system after the second call of `cleanPoolDir`. -/
def afterMkdir (d : String) (fs : FS) : FS := (osMkdirAll d (afterRemove d fs)).1

/-- The result of the third call of `cleanPoolDir`. -/
def writeResult (d : String) (fs : FS) : FS × Option String :=
  osWriteFile (filepathJoin [d, TempEmpty]) emptyPoolTemplate (afterMkdir d fs)

/-- The pool directory of a run: `filepath.Join(generate.HexyaDir, PoolDirRel)`. -/
def poolDirOf {P : Type} (env : Env P) : String := filepathJoin [env.HexyaDir, PoolDirRel]

/-- The world after the staging step of a run. -/
def staged {P : Type} (env : Env P) (w : World P) : World P :=
  (cleanPoolDir (poolDirOf env) w).1

/-- The directory handed to `build.ImportDir` (lines 83 to 86 of the source). -/
def targetDirOf (flags : Flags) (projectDir : String) (fs : FS) : String :=
  if flags.testedModule ≠ "" then (filepathAbs fs flags.testedModule).1
  else filepathJoin [projectDir, "config"]

/-- The import paths fed to the loader (lines 94 to 97 of the source). -/
def importSetOf (flags : Flags) (pkg : Package) : List String :=
  if flags.testedModule ≠ "" then [pkg.ImportPath] else pkg.Imports

/-- The result of `build.ImportDir` in a run. -/
def resolved {P : Type} (env : Env P) (flags : Flags) (projectDir : String) (w : World P) :
    Package × Option String :=
  env.importDir (staged env w).fs (targetDirOf flags projectDir (staged env w).fs)

/-- The result of the first, tolerant `conf.Load` of a run. -/
def tolerantLoad {P : Type} (env : Env P) (flags : Flags) (projectDir : String)
    (w : World P) : Option P × Option String :=
  env.load (staged env w).fs true (importSetOf flags (resolved env flags projectDir w).1)

/-- The result of `generate.CreatePool` in a run. -/
def synthesized {P : Type} (env : Env P) (flags : Flags) (projectDir : String)
    (w : World P) : FS × Option String :=
  env.createPool (tolerantLoad env flags projectDir w).1 (poolDirOf env) (staged env w).fs

/-- The result of the second, strict `conf.Load` of a run. -/
def strictLoad {P : Type} (env : Env P) (flags : Flags) (projectDir : String)
    (w : World P) : Option P × Option String :=
  env.load (synthesized env flags projectDir w).1 false
    (importSetOf flags (resolved env flags projectDir w).1)

/-- The events of the staging step of a run, with the results they had. -/
def stagingEvents {P : Type} (env : Env P) (w : World P) : List (Event P) :=
  [Event.removeAll (poolDirOf env) (osRemoveAll (poolDirOf env) w.fs).2,
   Event.mkdirAll (poolDirOf env) 0o755 (osMkdirAll (poolDirOf env) (afterRemove (poolDirOf env) w.fs)).2,
   Event.createFile (filepathJoin [poolDirOf env, TempEmpty]) emptyPoolTemplate
     (writeResult (poolDirOf env) w.fs).2]

/-- The events of the resolution step of a run. -/
def resolveEvents {P : Type} (env : Env P) (flags : Flags) (projectDir : String)
    (w : World P) : List (Event P) :=
  [Event.print "Hexya Generate\n------------\n",
   Event.print ("Detected Hexya root directory at " ++ env.HexyaDir ++ ".\n"),
   Event.print ("target dir " ++ targetDirOf flags projectDir (staged env w).fs ++ "\n"),
   Event.importDir (targetDirOf flags projectDir (staged env w).fs) 0
     (resolved env flags projectDir w).2]

/-- The events from the package report to the call of `generate.CreatePool`. -/
def synthesisEvents {P : Type} (env : Env P) (flags : Flags) (projectDir : String)
    (w : World P) : List (Event P) :=
  [Event.print ("Project package found: " ++ (resolved env flags projectDir w).1.Name ++ ".\n")]
  ++ (importSetOf flags (resolved env flags projectDir w).1).map Event.confImport
  ++ [Event.print
        "Loading program...\nWarnings may appear here, just ignore them if hexya-generate doesn't crash.\n",
      Event.confLoad true (importSetOf flags (resolved env flags projectDir w).1)
        (tolerantLoad env flags projectDir w).2,
      Event.print "Ok\n",
      Event.print "Generating pool...",
      Event.createPool (tolerantLoad env flags projectDir w).1 (poolDirOf env)]

/-- The events of the validation step up to the strict load. -/
def validationEvents {P : Type} (env : Env P) (flags : Flags) (projectDir : String)
    (w : World P) : List (Event P) :=
  [Event.print "Ok\n",
   Event.print "Checking the generated code...",
   Event.confLoad false (importSetOf flags (resolved env flags projectDir w).1)
     (strictLoad env flags projectDir w).2]

/-- The events a run adds to the log. -/
def runLog {P : Type} (env : Env P) (flags : Flags) (projectDir : String) (w : World P) :
    List (Event P) :=
  (runGenerate env flags projectDir w).1.log.drop w.log.length

/-- The event is a call to a collaborator or to the operating system, not a
progress message. -/
def Event.isCall {P : Type} : Event P → Bool
  | Event.print _ => false
  | _ => true

/-- The event is a call to `build.ImportDir`, `conf.Import`, `conf.Load` or
`generate.CreatePool`. -/
def Event.isPipelineCall {P : Type} : Event P → Bool
  | Event.importDir _ _ _ => true
  | Event.confImport _ => true
  | Event.confLoad _ _ _ => true
  | Event.createPool _ _ => true
  | _ => false

/-- The condition under which `os.WriteFile` succeeds at the resolved path `t`. -/
def writable (t : Key) (fs : FS) : Prop :=
  fs.allDirs t.dropLast ∧ fs.lookup t ≠ some Node.dir ∧
    ¬ (t ∈ fs.locked ∧ (fs.lookup t).isSome = true)

instance (t : Key) (fs : FS) : Decidable (writable t fs) :=
  inferInstanceAs (Decidable (fs.allDirs t.dropLast ∧ fs.lookup t ≠ some Node.dir ∧
    ¬ (t ∈ fs.locked ∧ (fs.lookup t).isSome = true)))

/-- The state change of `os.WriteFile` at the resolved path `t`. -/
def writeKey (t : Key) (content : String) (fs : FS) : FS :=
  if writable t fs then
    { fs with nodes := fun p => if p = t then some (Node.file content) else fs.nodes p }
  else fs

/-- The import paths given to `conf.Import`, in call order. -/
def importCalls {P : Type} (l : List (Event P)) : List String :=
  l.filterMap (fun e => match e with
    | Event.confImport p => some p
    | _ => none)

/-! ## Concrete inputs -/

/-- A file system with a hexya root `/h` whose pool directory holds one
generated file from an earlier run. -/
def demoNodes : Key → Option Node := fun p =>
  if p = ["h"] then some Node.dir
  else if p = ["h", "pool"] then some Node.dir
  else if p = ["h", "pool", "old.go"] then some (Node.file "package pool")
  else none

/-- The file system above, nothing locked, working directory `/h`. -/
def demoFS : FS := { nodes := demoNodes, locked := [], cwd := ["h"] }

/-- Collaborators for the concrete runs: every directory but `bad/config`
holds the package `proj/config` importing `a`, `b`, `a`; the tolerant load
reports type errors, the strict load reports none; the synthesizer leaves the
file system as it is. -/
def demoEnv : Env Nat :=
  { HexyaDir := "/h"
    importDir := fun _ d =>
      (Package.mk "config" "proj/config" ["a", "b", "a"],
       if d == "bad/config" then some "no buildable Go source files" else none)
    load := fun _ allowErrors _ => (some 7, if allowErrors then some "type errors" else none)
    createPool := fun _ _ fs => (fs, none) }

/-- Collaborators whose strict load fails. -/
def strictFailEnv : Env Nat :=
  { demoEnv with load := fun _ _ _ => (some 7, some "undeclared name: pool.Partner") }

/-- The start of a run on `demoFS`. -/
def demoWorld : World Nat := { fs := demoFS, log := [], importedPaths := [] }

theorem splitSlash_cons_slash (l : List Char) : splitSlash ('/' :: l) = [] :: splitSlash l := by
  simp [splitSlash]

theorem osRemoveAll_locked (d : String) (fs : FS) : (osRemoveAll d fs).1.locked = fs.locked := by
  unfold osRemoveAll; split_ifs <;> rfl

theorem osMkdirAll_locked (d : String) (fs : FS) : (osMkdirAll d fs).1.locked = fs.locked := by
  unfold osMkdirAll; simp only; split_ifs <;> rfl

theorem osWriteFile_locked (f c : String) (fs : FS) :
    (osWriteFile f c fs).1.locked = fs.locked := by
  unfold osWriteFile; simp only; split_ifs <;> rfl

theorem cleanPoolDir_log {P : Type} (d : String) (w : World P) :
    (cleanPoolDir d w).1.log = w.log ++
      [Event.removeAll d (osRemoveAll d w.fs).2,
       Event.mkdirAll d 0o755 (osMkdirAll d (afterRemove d w.fs)).2,
       Event.createFile (filepathJoin [d, TempEmpty]) emptyPoolTemplate (writeResult d w.fs).2] := by
  simp [cleanPoolDir, createFileFromTemplate, World.emit, writeResult, afterMkdir, afterRemove]

theorem cleanPoolDir_importedPaths {P : Type} (d : String) (w : World P) :
    (cleanPoolDir d w).1.importedPaths = w.importedPaths := rfl

theorem writeKey_cwd (t : Key) (c : String) (fs : FS) : (writeKey t c fs).cwd = fs.cwd := by
  unfold writeKey; split_ifs <;> rfl

theorem importAll_log {P : Type} (paths : List String) (w : World P) :
    (importAll paths w).log = w.log ++ paths.map Event.confImport := by
  unfold importAll
  induction paths generalizing w with
  | nil => simp
  | cons x xs ih =>
    simp only [List.foldl_cons, List.map_cons]
    rw [ih]
    simp [World.emit]

theorem importAll_fs {P : Type} (paths : List String) (w : World P) :
    (importAll paths w).fs = w.fs := by
  unfold importAll
  induction paths generalizing w with
  | nil => rfl
  | cons x xs ih =>
    simp only [List.foldl_cons]
    rw [ih]
    rfl

theorem importAll_importedPaths {P : Type} (paths : List String) (w : World P) :
    (importAll paths w).importedPaths = w.importedPaths := by
  unfold importAll
  induction paths generalizing w with
  | nil => rfl
  | cons x xs ih =>
    simp only [List.foldl_cons]
    rw [ih]
    rfl

theorem staged_log {P : Type} (env : Env P) (w : World P) :
    (staged env w).log = w.log ++ stagingEvents env w :=
  cleanPoolDir_log (poolDirOf env) w

theorem cleanPoolDir_eq {P : Type} (env : Env P) (w : World P) :
    cleanPoolDir (filepathJoin [env.HexyaDir, PoolDirRel]) w =
      (staged env w, (cleanPoolDir (poolDirOf env) w).2) := rfl

/-- A run whose staging panics ends there. -/
theorem run_staging_panic {P : Type} (env : Env P) (flags : Flags) (projectDir : String)
    (w : World P) (msg : String) (h : (cleanPoolDir (poolDirOf env) w).2 = some msg) :
    runGenerate env flags projectDir w = (staged env w, Outcome.panicked msg) := by
  unfold runGenerate
  simp only [cleanPoolDir_eq, h]

/-- A run in empty-pool mode ends after the staging. -/
theorem run_empty {P : Type} (env : Env P) (flags : Flags) (projectDir : String)
    (w : World P) (h : (cleanPoolDir (poolDirOf env) w).2 = none)
    (he : flags.generateEmptyPool = true) :
    runGenerate env flags projectDir w = (staged env w, Outcome.returned) := by
  unfold runGenerate
  simp only [cleanPoolDir_eq, h, he, if_true]

@[simp] theorem emit_fs {P : Type} (w : World P) (e : Event P) : (w.emit e).fs = w.fs := rfl

@[simp] theorem emit_log {P : Type} (w : World P) (e : Event P) :
    (w.emit e).log = w.log ++ [e] := rfl

@[simp] theorem emit_importedPaths {P : Type} (w : World P) (e : Event P) :
    (w.emit e).importedPaths = w.importedPaths := rfl

/-- A run whose resolution fails ends with a panic, right after the call of
`build.ImportDir`. -/
theorem run_resolve_fail {P : Type} (env : Env P) (flags : Flags) (projectDir : String)
    (w : World P) (err : String) (h : (cleanPoolDir (poolDirOf env) w).2 = none)
    (he : flags.generateEmptyPool = false)
    (hr : (resolved env flags projectDir w).2 = some err) :
    (runGenerate env flags projectDir w).2
        = Outcome.panicked ("Error while importing project: " ++ err) ∧
    (runGenerate env flags projectDir w).1.fs = (staged env w).fs ∧
    (runGenerate env flags projectDir w).1.log
        = w.log ++ stagingEvents env w ++ resolveEvents env flags projectDir w := by
  unfold resolved targetDirOf at hr
  unfold runGenerate
  simp only [cleanPoolDir_eq, h, he, emit_fs, Bool.false_eq_true, if_false, hr]
  simp only [ne_eq, ite_not] at hr
  simp [staged_log, resolveEvents, resolved, targetDirOf, hr]

/-- A run in which `generate.CreatePool` panics ends there. -/
theorem run_synthesis_panic {P : Type} (env : Env P) (flags : Flags) (projectDir : String)
    (w : World P) (msg : String) (h : (cleanPoolDir (poolDirOf env) w).2 = none)
    (he : flags.generateEmptyPool = false)
    (hr : (resolved env flags projectDir w).2 = none)
    (hg : (synthesized env flags projectDir w).2 = some msg) :
    (runGenerate env flags projectDir w).2 = Outcome.panicked msg ∧
    (runGenerate env flags projectDir w).1.fs = (synthesized env flags projectDir w).1 ∧
    (runGenerate env flags projectDir w).1.log
        = w.log ++ stagingEvents env w ++ resolveEvents env flags projectDir w
          ++ synthesisEvents env flags projectDir w := by
  unfold synthesized tolerantLoad importSetOf at hg
  unfold resolved targetDirOf at hr hg
  rw [show poolDirOf env = filepathJoin [env.HexyaDir, PoolDirRel] from rfl] at hg
  unfold runGenerate
  simp only [cleanPoolDir_eq, h, he, emit_fs, Bool.false_eq_true, if_false, hr, importAll_fs, hg]
  simp only [ne_eq, ite_not] at hr hg
  simp [staged_log, resolveEvents, synthesisEvents, synthesized, tolerantLoad, importSetOf,
    resolved, targetDirOf, hr, hg, importAll_log, poolDirOf]

/-- A run whose strict load fails ends with `os.Exit(1)`. -/
theorem run_strict_fail {P : Type} (env : Env P) (flags : Flags) (projectDir : String)
    (w : World P) (err : String) (h : (cleanPoolDir (poolDirOf env) w).2 = none)
    (he : flags.generateEmptyPool = false)
    (hr : (resolved env flags projectDir w).2 = none)
    (hg : (synthesized env flags projectDir w).2 = none)
    (hl : (strictLoad env flags projectDir w).2 = some err) :
    (runGenerate env flags projectDir w).2 = Outcome.exited 1 ∧
    (runGenerate env flags projectDir w).1.fs = (synthesized env flags projectDir w).1 ∧
    (runGenerate env flags projectDir w).1.log
        = w.log ++ stagingEvents env w ++ resolveEvents env flags projectDir w
          ++ synthesisEvents env flags projectDir w ++ validationEvents env flags projectDir w
          ++ [Event.print ("FAIL " ++ err ++ "\n"), Event.exit 1] := by
  unfold strictLoad at hl
  unfold synthesized tolerantLoad importSetOf at hg hl
  unfold resolved targetDirOf at hr hg hl
  rw [show poolDirOf env = filepathJoin [env.HexyaDir, PoolDirRel] from rfl] at hg hl
  unfold runGenerate
  simp only [cleanPoolDir_eq, h, he, emit_fs, Bool.false_eq_true, if_false, hr, importAll_fs, hg,
    hl]
  simp only [ne_eq, ite_not] at hr hg hl
  simp [staged_log, resolveEvents, synthesisEvents, validationEvents, strictLoad, synthesized,
    tolerantLoad, importSetOf, resolved, targetDirOf, hr, hg, hl, importAll_log, poolDirOf]

/-- A run whose strict load succeeds ends with a normal return. -/
theorem run_success {P : Type} (env : Env P) (flags : Flags) (projectDir : String)
    (w : World P) (h : (cleanPoolDir (poolDirOf env) w).2 = none)
    (he : flags.generateEmptyPool = false)
    (hr : (resolved env flags projectDir w).2 = none)
    (hg : (synthesized env flags projectDir w).2 = none)
    (hl : (strictLoad env flags projectDir w).2 = none) :
    (runGenerate env flags projectDir w).2 = Outcome.returned ∧
    (runGenerate env flags projectDir w).1.fs = (synthesized env flags projectDir w).1 ∧
    (runGenerate env flags projectDir w).1.log
        = w.log ++ stagingEvents env w ++ resolveEvents env flags projectDir w
          ++ synthesisEvents env flags projectDir w ++ validationEvents env flags projectDir w
          ++ [Event.print "Ok\n", Event.print "Pool generated successfully\n"] := by
  unfold strictLoad at hl
  unfold synthesized tolerantLoad importSetOf at hg hl
  unfold resolved targetDirOf at hr hg hl
  rw [show poolDirOf env = filepathJoin [env.HexyaDir, PoolDirRel] from rfl] at hg hl
  unfold runGenerate
  simp only [cleanPoolDir_eq, h, he, emit_fs, Bool.false_eq_true, if_false, hr, importAll_fs, hg,
    hl]
  simp only [ne_eq, ite_not] at hr hg hl
  simp [staged_log, resolveEvents, synthesisEvents, validationEvents, strictLoad, synthesized,
    tolerantLoad, importSetOf, resolved, targetDirOf, hr, hg, hl, importAll_log, poolDirOf]

theorem runLog_of_log {P : Type} (env : Env P) (flags : Flags) (projectDir : String)
    (w : World P) (l : List (Event P))
    (h : (runGenerate env flags projectDir w).1.log = w.log ++ l) :
    runLog env flags projectDir w = l := by
  unfold runLog
  rw [h, List.drop_left]

/-- The six ways a run can go, each with its outcome, its final file system
and the events it logged. -/
theorem run_cases {P : Type} (env : Env P) (flags : Flags) (projectDir : String)
    (w : World P) :
    (∃ msg, (cleanPoolDir (poolDirOf env) w).2 = some msg ∧
      (runGenerate env flags projectDir w).2 = Outcome.panicked msg ∧
      (runGenerate env flags projectDir w).1.fs = (staged env w).fs ∧
      runLog env flags projectDir w = stagingEvents env w) ∨
    ((cleanPoolDir (poolDirOf env) w).2 = none ∧ flags.generateEmptyPool = true ∧
      (runGenerate env flags projectDir w).2 = Outcome.returned ∧
      (runGenerate env flags projectDir w).1.fs = (staged env w).fs ∧
      runLog env flags projectDir w = stagingEvents env w) ∨
    ((cleanPoolDir (poolDirOf env) w).2 = none ∧ flags.generateEmptyPool = false ∧
      ∃ err, (resolved env flags projectDir w).2 = some err ∧
      (runGenerate env flags projectDir w).2
        = Outcome.panicked ("Error while importing project: " ++ err) ∧
      (runGenerate env flags projectDir w).1.fs = (staged env w).fs ∧
      runLog env flags projectDir w
        = stagingEvents env w ++ resolveEvents env flags projectDir w) ∨
    ((cleanPoolDir (poolDirOf env) w).2 = none ∧ flags.generateEmptyPool = false ∧
      (resolved env flags projectDir w).2 = none ∧
      ∃ msg, (synthesized env flags projectDir w).2 = some msg ∧
      (runGenerate env flags projectDir w).2 = Outcome.panicked msg ∧
      (runGenerate env flags projectDir w).1.fs = (synthesized env flags projectDir w).1 ∧
      runLog env flags projectDir w
        = stagingEvents env w ++ resolveEvents env flags projectDir w
          ++ synthesisEvents env flags projectDir w) ∨
    ((cleanPoolDir (poolDirOf env) w).2 = none ∧ flags.generateEmptyPool = false ∧
      (resolved env flags projectDir w).2 = none ∧
      (synthesized env flags projectDir w).2 = none ∧
      ∃ err, (strictLoad env flags projectDir w).2 = some err ∧
      (runGenerate env flags projectDir w).2 = Outcome.exited 1 ∧
      (runGenerate env flags projectDir w).1.fs = (synthesized env flags projectDir w).1 ∧
      runLog env flags projectDir w
        = stagingEvents env w ++ resolveEvents env flags projectDir w
          ++ synthesisEvents env flags projectDir w ++ validationEvents env flags projectDir w
          ++ [Event.print ("FAIL " ++ err ++ "\n"), Event.exit 1]) ∨
    ((cleanPoolDir (poolDirOf env) w).2 = none ∧ flags.generateEmptyPool = false ∧
      (resolved env flags projectDir w).2 = none ∧
      (synthesized env flags projectDir w).2 = none ∧
      (strictLoad env flags projectDir w).2 = none ∧
      (runGenerate env flags projectDir w).2 = Outcome.returned ∧
      (runGenerate env flags projectDir w).1.fs = (synthesized env flags projectDir w).1 ∧
      runLog env flags projectDir w
        = stagingEvents env w ++ resolveEvents env flags projectDir w
          ++ synthesisEvents env flags projectDir w ++ validationEvents env flags projectDir w
          ++ [Event.print "Ok\n", Event.print "Pool generated successfully\n"]) := by
  cases hs : (cleanPoolDir (poolDirOf env) w).2 with
  | some msg =>
    left
    have hrun := run_staging_panic env flags projectDir w msg hs
    refine ⟨msg, rfl, by rw [hrun], by rw [hrun], ?_⟩
    apply runLog_of_log
    rw [hrun]
    exact staged_log env w
  | none =>
    right
    cases he : flags.generateEmptyPool with
    | true =>
      left
      have hrun := run_empty env flags projectDir w hs he
      refine ⟨rfl, rfl, by rw [hrun], by rw [hrun], ?_⟩
      apply runLog_of_log
      rw [hrun]
      exact staged_log env w
    | false =>
      right
      cases hr : (resolved env flags projectDir w).2 with
      | some err =>
        left
        obtain ⟨h1, h2, h3⟩ := run_resolve_fail env flags projectDir w err hs he hr
        refine ⟨rfl, rfl, err, rfl, h1, h2, ?_⟩
        apply runLog_of_log
        rw [h3, List.append_assoc]
      | none =>
        right
        cases hg : (synthesized env flags projectDir w).2 with
        | some msg =>
          left
          obtain ⟨h1, h2, h3⟩ := run_synthesis_panic env flags projectDir w msg hs he hr hg
          refine ⟨rfl, rfl, rfl, msg, rfl, h1, h2, ?_⟩
          apply runLog_of_log
          rw [h3]
          simp only [List.append_assoc]
        | none =>
          right
          cases hl : (strictLoad env flags projectDir w).2 with
          | some err =>
            left
            obtain ⟨h1, h2, h3⟩ := run_strict_fail env flags projectDir w err hs he hr hg hl
            refine ⟨rfl, rfl, rfl, rfl, err, rfl, h1, h2, ?_⟩
            apply runLog_of_log
            rw [h3]
            simp only [List.append_assoc]
          | none =>
            right
            obtain ⟨h1, h2, h3⟩ := run_success env flags projectDir w hs he hr hg hl
            refine ⟨rfl, rfl, rfl, rfl, rfl, h1, h2, ?_⟩
            apply runLog_of_log
            rw [h3]
            simp only [List.append_assoc]

/-! ## Facts about the paths of a run -/

theorem importCalls_append {P : Type} (a b : List (Event P)) :
    importCalls (a ++ b) = importCalls a ++ importCalls b := by
  unfold importCalls
  exact List.filterMap_append _ _ _

theorem importCalls_map {P : Type} (l : List String) :
    importCalls (l.map (Event.confImport : String → Event P)) = l := by
  unfold importCalls
  induction l with
  | nil => rfl
  | cons x xs ih => simp [List.filterMap_cons, ih]

theorem importCalls_staging {P : Type} (env : Env P) (w : World P) :
    importCalls (stagingEvents env w) = [] := rfl

theorem importCalls_resolve {P : Type} (env : Env P) (flags : Flags) (projectDir : String)
    (w : World P) : importCalls (resolveEvents env flags projectDir w) = [] := rfl

theorem importCalls_synthesis {P : Type} (env : Env P) (flags : Flags) (projectDir : String)
    (w : World P) :
    importCalls (synthesisEvents env flags projectDir w)
      = importSetOf flags (resolved env flags projectDir w).1 := by
  unfold synthesisEvents
  rw [importCalls_append, importCalls_append, importCalls_map]
  simp [importCalls]

theorem importCalls_validation {P : Type} (env : Env P) (flags : Flags) (projectDir : String)
    (w : World P) : importCalls (validationEvents env flags projectDir w) = [] := rfl

/-- What the log of a run says about resolution and loading: every call of
`build.ImportDir` is on the target directory, every call of `conf.Load` is
over the import set, which is also the sequence of the `conf.Import` calls. -/
theorem run_resolution_facts {P : Type} (env : Env P) (flags : Flags) (projectDir : String)
    (w : World P) :
    (∀ dir mode res, Event.importDir dir mode res ∈ runLog env flags projectDir w →
      dir = targetDirOf flags projectDir (staged env w).fs ∧ mode = 0 ∧
      res = (resolved env flags projectDir w).2) ∧
    (∀ ae imps res, Event.confLoad ae imps res ∈ runLog env flags projectDir w →
      imps = importSetOf flags (resolved env flags projectDir w).1 ∧
      importCalls (runLog env flags projectDir w) = imps) ∧
    ((cleanPoolDir (poolDirOf env) w).2 = none → flags.generateEmptyPool = false →
      Event.importDir (targetDirOf flags projectDir (staged env w).fs) 0
        (resolved env flags projectDir w).2 ∈ runLog env flags projectDir w) := by
  refine ⟨?_, ?_, ?_⟩
  · intro dir mode res hmem
    rcases run_cases env flags projectDir w with
      ⟨msg, hs, _, _, hlog⟩ | ⟨hs, he, _, _, hlog⟩ | ⟨hs, he, err, hr, _, _, hlog⟩ |
      ⟨hs, he, hr, msg, hg, _, _, hlog⟩ | ⟨hs, he, hr, hg, err, hl, _, _, hlog⟩ |
      ⟨hs, he, hr, hg, hl, _, _, hlog⟩
    all_goals rw [hlog] at hmem
    all_goals
      simp [stagingEvents, resolveEvents, synthesisEvents, validationEvents] at hmem
    all_goals exact hmem
  · intro ae imps res hmem
    rcases run_cases env flags projectDir w with
      ⟨msg, hs, _, _, hlog⟩ | ⟨hs, he, _, _, hlog⟩ | ⟨hs, he, err, hr, _, _, hlog⟩ |
      ⟨hs, he, hr, msg, hg, _, _, hlog⟩ | ⟨hs, he, hr, hg, err, hl, _, _, hlog⟩ |
      ⟨hs, he, hr, hg, hl, _, _, hlog⟩
    all_goals rw [hlog] at hmem ⊢
    all_goals
      simp only [importCalls_append, importCalls_staging, importCalls_resolve,
        importCalls_synthesis, importCalls_validation]
    all_goals
      simp [stagingEvents, resolveEvents, synthesisEvents, validationEvents] at hmem
    all_goals
      have himp : imps = importSetOf flags (resolved env flags projectDir w).1 := by tauto
    all_goals simp [himp, importCalls]
  · intro h1 h2
    rcases run_cases env flags projectDir w with
      ⟨msg, hs, _, _, hlog⟩ | ⟨hs, he, _, _, hlog⟩ | ⟨hs, he, err, hr, _, _, hlog⟩ |
      ⟨hs, he, hr, msg, hg, _, _, hlog⟩ | ⟨hs, he, hr, hg, err, hl, _, _, hlog⟩ |
      ⟨hs, he, hr, hg, hl, _, _, hlog⟩
    · rw [hs] at h1; exact Option.noConfusion h1
    · rw [he] at h2; exact Bool.noConfusion h2
    all_goals rw [hlog]
    all_goals simp [resolveEvents]

/-- No staging event is a call to the resolver, the loader or the synthesizer. -/
theorem filter_pipeline_staging {P : Type} (env : Env P) (w : World P) :
    (stagingEvents env w).filter Event.isPipelineCall = [] := rfl

theorem filter_isCall_staging {P : Type} (env : Env P) (w : World P) :
    (stagingEvents env w).filter Event.isCall = stagingEvents env w := rfl

theorem filter_isCall_map {P : Type} (l : List String) :
    (l.map (Event.confImport : String → Event P)).filter Event.isCall
      = l.map Event.confImport := by
  induction l with
  | nil => rfl
  | cons x xs ih => simp [List.filter_cons, Event.isCall, ih]

theorem filter_isPipelineCall_map {P : Type} (l : List String) :
    (l.map (Event.confImport : String → Event P)).filter Event.isPipelineCall
      = l.map Event.confImport := by
  induction l with
  | nil => rfl
  | cons x xs ih => simp [List.filter_cons, Event.isPipelineCall, ih]

/-- C5: with no tested module and empty-pool mode off, every call of
`build.ImportDir` in the run is on `filepath.Join(projectDir, "config")`;
every `conf.Load` is over the declared import list of the package found
there, and the `conf.Import` calls of the run are exactly that list: one call
per entry, in list order, duplicates kept; and a run whose staging did not
panic does make that call of `build.ImportDir`. -/
theorem C5_normal_mode_resolution {P : Type} (env : Env P) (flags : Flags)
    (projectDir : String) (w : World P)
    (ht : flags.testedModule = "") (he : flags.generateEmptyPool = false) :
    (∀ dir mode res, Event.importDir dir mode res ∈ runLog env flags projectDir w →
      dir = filepathJoin [projectDir, "config"]) ∧
    (∀ ae imps res, Event.confLoad ae imps res ∈ runLog env flags projectDir w →
      imps = (env.importDir (staged env w).fs (filepathJoin [projectDir, "config"])).1.Imports ∧
      importCalls (runLog env flags projectDir w) = imps) ∧
    ((cleanPoolDir (filepathJoin [env.HexyaDir, PoolDirRel]) w).2 = none →
      ∃ res, Event.importDir (filepathJoin [projectDir, "config"]) 0 res
        ∈ runLog env flags projectDir w) := by
  obtain ⟨h1, h2, h3⟩ := run_resolution_facts env flags projectDir w
  have htd : targetDirOf flags projectDir (staged env w).fs
      = filepathJoin [projectDir, "config"] := by
    simp [targetDirOf, ht]
  have his : importSetOf flags (resolved env flags projectDir w).1
      = (env.importDir (staged env w).fs (filepathJoin [projectDir, "config"])).1.Imports := by
    simp [importSetOf, ht, resolved, htd]
  refine ⟨?_, ?_, ?_⟩
  · intro dir mode res hmem
    have hd := (h1 dir mode res hmem).1
    rw [htd] at hd
    exact hd
  · intro ae imps res hmem
    obtain ⟨ha, hb⟩ := h2 ae imps res hmem
    rw [his] at ha
    exact ⟨ha, hb⟩
  · intro hs
    have := h3 hs he
    rw [htd] at this
    exact ⟨_, this⟩

set_option maxRecDepth 100000 in
/-- C5 at a concrete input: project directory `proj`, whose package imports
`a`, `b` and `a` again. -/
theorem C5_normal_mode_resolution_witness :
    (Flags.mk false "").testedModule = "" ∧
    (Flags.mk false "").generateEmptyPool = false ∧
    Event.importDir "proj/config" 0 none ∈ runLog demoEnv (Flags.mk false "") "proj" demoWorld ∧
    Event.confLoad false ["a", "b", "a"] none
      ∈ runLog demoEnv (Flags.mk false "") "proj" demoWorld ∧
    importCalls (runLog demoEnv (Flags.mk false "") "proj" demoWorld) = ["a", "b", "a"] :=
  ⟨rfl, rfl, by decide, by decide,
   (((C5_normal_mode_resolution demoEnv (Flags.mk false "") "proj" demoWorld
      rfl rfl).2.1 false ["a", "b", "a"] none (by decide)).2)⟩

/-- C6: in every run that reaches the strict load, the result logged for it
is what the loader returned with `AllowErrors = false`; the exit status is 1
if and only if that result is an error; with an error the run prints `FAIL`
and the error, calls `os.Exit(1)` and never prints the success message; with
no error the run prints the success message and returns normally, with exit
status 0. -/
theorem C6_validation_verdict {P : Type} (env : Env P) (flags : Flags)
    (projectDir : String) (w : World P) (imps : List String) (res : Option String)
    (hreach : Event.confLoad false imps res ∈ runLog env flags projectDir w) :
    res = (env.load (synthesized env flags projectDir w).1 false imps).2 ∧
    ((runGenerate env flags projectDir w).2.exitStatus = 1 ↔ res ≠ none) ∧
    (∀ err, res = some err →
      (runGenerate env flags projectDir w).2 = Outcome.exited 1 ∧
      (∃ pre, runLog env flags projectDir w = pre ++
        [Event.confLoad false imps (some err), Event.print ("FAIL " ++ err ++ "\n"),
         Event.exit 1]) ∧
      Event.print "Pool generated successfully\n" ∉ runLog env flags projectDir w) ∧
    (res = none →
      (runGenerate env flags projectDir w).2 = Outcome.returned ∧
      (runGenerate env flags projectDir w).2.exitStatus = 0 ∧
      ∃ pre, runLog env flags projectDir w = pre ++
        [Event.confLoad false imps none, Event.print "Ok\n",
         Event.print "Pool generated successfully\n"]) := by
  rcases run_cases env flags projectDir w with
    ⟨msg, hs, _, _, hlog⟩ | ⟨hs, he, _, _, hlog⟩ | ⟨hs, he, err, hr, _, _, hlog⟩ |
    ⟨hs, he, hr, msg, hg, _, _, hlog⟩ | ⟨hs, he, hr, hg, err, hl, hout, _, hlog⟩ |
    ⟨hs, he, hr, hg, hl, hout, _, hlog⟩
  · rw [hlog] at hreach; simp [stagingEvents] at hreach
  · rw [hlog] at hreach; simp [stagingEvents] at hreach
  · rw [hlog] at hreach; simp [stagingEvents, resolveEvents] at hreach
  · rw [hlog] at hreach; simp [stagingEvents, resolveEvents, synthesisEvents] at hreach
  · have hmem := hreach
    rw [hlog] at hmem
    simp [stagingEvents, resolveEvents, synthesisEvents, validationEvents] at hmem
    obtain ⟨himp, hres⟩ := hmem
    rw [hl] at hres
    subst hres
    subst himp
    refine ⟨hl.symm, ?_, ?_, ?_⟩
    · rw [hout]; simp [Outcome.exitStatus]
    · intro e he2
      have hee : err = e := Option.some.inj he2
      subst hee
      refine ⟨hout, ⟨stagingEvents env w ++ resolveEvents env flags projectDir w
          ++ synthesisEvents env flags projectDir w
          ++ [Event.print "Ok\n", Event.print "Checking the generated code..."], ?_⟩, ?_⟩
      · rw [hlog]; simp [validationEvents, hl]
      · rw [hlog]
        simp [stagingEvents, resolveEvents, synthesisEvents, validationEvents, String.ext_iff]
    · intro h; exact Option.noConfusion h
  · have hmem := hreach
    rw [hlog] at hmem
    simp [stagingEvents, resolveEvents, synthesisEvents, validationEvents] at hmem
    obtain ⟨himp, hres⟩ := hmem
    rw [hl] at hres
    subst hres
    subst himp
    refine ⟨hl.symm, ?_, ?_, ?_⟩
    · rw [hout]; simp [Outcome.exitStatus]
    · intro e h; exact Option.noConfusion h
    · intro _
      refine ⟨hout, by rw [hout]; rfl, stagingEvents env w ++ resolveEvents env flags projectDir w
          ++ synthesisEvents env flags projectDir w
          ++ [Event.print "Ok\n", Event.print "Checking the generated code..."], ?_⟩
      rw [hlog]; simp [validationEvents, hl]

set_option maxRecDepth 100000 in
/-- C6 at a concrete input: a run whose strict load fails. -/
theorem C6_validation_verdict_witness :
    Event.confLoad false ["a", "b", "a"] (some "undeclared name: pool.Partner")
      ∈ runLog strictFailEnv (Flags.mk false "") "proj" demoWorld ∧
    (runGenerate strictFailEnv (Flags.mk false "") "proj" demoWorld).2 = Outcome.exited 1 ∧
    Event.print "Pool generated successfully\n"
      ∉ runLog strictFailEnv (Flags.mk false "") "proj" demoWorld :=
  ⟨by decide,
   ((C6_validation_verdict strictFailEnv (Flags.mk false "") "proj" demoWorld ["a", "b", "a"]
      (some "undeclared name: pool.Partner") (by decide)).2.2.1
      "undeclared name: pool.Partner" rfl).1,
   ((C6_validation_verdict strictFailEnv (Flags.mk false "") "proj" demoWorld ["a", "b", "a"]
      (some "undeclared name: pool.Partner") (by decide)).2.2.1
      "undeclared name: pool.Partner" rfl).2.2⟩

/-- C7: when `build.ImportDir` fails, the run panics with the import error,
so the process exits with a nonzero status; the file system is the one that
`cleanPoolDir` left; and the failed `build.ImportDir` is the only call to the
resolver, the loader or the synthesizer in the run: no `conf.Import`, no
`conf.Load` and no `generate.CreatePool` has happened. -/
theorem C7_fatal_resolution {P : Type} (env : Env P) (flags : Flags)
    (projectDir : String) (w : World P) (dir : String) (mode : Nat) (err : String)
    (hfail : Event.importDir dir mode (some err) ∈ runLog env flags projectDir w) :
    (runGenerate env flags projectDir w).2
      = Outcome.panicked ("Error while importing project: " ++ err) ∧
    (runGenerate env flags projectDir w).2.exitStatus ≠ 0 ∧
    (runGenerate env flags projectDir w).1.fs
      = (cleanPoolDir (filepathJoin [env.HexyaDir, PoolDirRel]) w).1.fs ∧
    (runLog env flags projectDir w).filter Event.isPipelineCall
      = [Event.importDir dir mode (some err)] := by
  rcases run_cases env flags projectDir w with
    ⟨msg, hs, _, _, hlog⟩ | ⟨hs, he, _, _, hlog⟩ | ⟨hs, he, e, hr, hout, hfs, hlog⟩ |
    ⟨hs, he, hr, msg, hg, _, _, hlog⟩ | ⟨hs, he, hr, hg, e, hl, _, _, hlog⟩ |
    ⟨hs, he, hr, hg, hl, _, _, hlog⟩
  · rw [hlog] at hfail; simp [stagingEvents] at hfail
  · rw [hlog] at hfail; simp [stagingEvents] at hfail
  · have hmem := hfail
    rw [hlog] at hmem
    simp [stagingEvents, resolveEvents, hr] at hmem
    obtain ⟨hd, hm, hee⟩ := hmem
    subst hee
    refine ⟨hout, by rw [hout]; simp [Outcome.exitStatus], hfs, ?_⟩
    rw [hlog, List.filter_append, filter_pipeline_staging]
    simp [resolveEvents, Event.isPipelineCall, hr, hd, hm]
  · rw [hlog] at hfail
    simp [stagingEvents, resolveEvents, synthesisEvents, hr] at hfail
  · rw [hlog] at hfail
    simp [stagingEvents, resolveEvents, synthesisEvents, validationEvents, hr] at hfail
  · rw [hlog] at hfail
    simp [stagingEvents, resolveEvents, synthesisEvents, validationEvents, hr] at hfail

set_option maxRecDepth 100000 in
/-- C7 at a concrete input: the project directory `bad` holds no package. -/
theorem C7_fatal_resolution_witness :
    Event.importDir "bad/config" 0 (some "no buildable Go source files")
      ∈ runLog demoEnv (Flags.mk false "") "bad" demoWorld ∧
    (runGenerate demoEnv (Flags.mk false "") "bad" demoWorld).2
      = Outcome.panicked ("Error while importing project: " ++ "no buildable Go source files") ∧
    (runLog demoEnv (Flags.mk false "") "bad" demoWorld).filter Event.isPipelineCall
      = [Event.importDir "bad/config" 0 (some "no buildable Go source files")] :=
  ⟨by decide,
   (C7_fatal_resolution demoEnv (Flags.mk false "") "bad" demoWorld "bad/config" 0
      "no buildable Go source files" (by decide)).1,
   (C7_fatal_resolution demoEnv (Flags.mk false "") "bad" demoWorld "bad/config" 0
      "no buildable Go source files" (by decide)).2.2.2⟩

/-- C9: whatever the tolerant load returns (an error or none, any program
value), the run goes on: the logged result is the one the loader returned
with `AllowErrors = true`, and the load is followed, after two progress
messages, by the call of `generate.CreatePool` on the program value that this
load returned and on the pool directory `<HexyaDir>/pool`. -/
theorem C9_tolerant_load_nonfatal {P : Type} (env : Env P) (flags : Flags)
    (projectDir : String) (w : World P) (imps : List String) (res : Option String)
    (hload : Event.confLoad true imps res ∈ runLog env flags projectDir w) :
    res = (env.load (staged env w).fs true imps).2 ∧
    ∃ pre post, runLog env flags projectDir w = pre ++
      [Event.confLoad true imps res, Event.print "Ok\n", Event.print "Generating pool...",
       Event.createPool (env.load (staged env w).fs true imps).1
         (filepathJoin [env.HexyaDir, PoolDirRel])] ++ post := by
  have key : ∀ rest : List (Event P),
      runLog env flags projectDir w
        = stagingEvents env w ++ resolveEvents env flags projectDir w
          ++ synthesisEvents env flags projectDir w ++ rest →
      Event.confLoad true imps res ∈ stagingEvents env w ++ resolveEvents env flags projectDir w
          ++ synthesisEvents env flags projectDir w ∨ Event.confLoad true imps res ∈ rest →
      (∀ e ∈ rest, ∀ a b, e ≠ Event.confLoad true a b) →
      res = (env.load (staged env w).fs true imps).2 ∧
      ∃ pre post, runLog env flags projectDir w = pre ++
        [Event.confLoad true imps res, Event.print "Ok\n", Event.print "Generating pool...",
         Event.createPool (env.load (staged env w).fs true imps).1
           (filepathJoin [env.HexyaDir, PoolDirRel])] ++ post := by
    intro rest hlog hmem hrest
    have hmem2 : imps = importSetOf flags (resolved env flags projectDir w).1 ∧
        res = (tolerantLoad env flags projectDir w).2 := by
      rcases hmem with hmem | hmem
      · simpa [stagingEvents, resolveEvents, synthesisEvents] using hmem
      · exact absurd rfl (hrest _ hmem imps res)
    obtain ⟨himp, hres⟩ := hmem2
    subst himp
    refine ⟨hres, stagingEvents env w ++ resolveEvents env flags projectDir w
      ++ [Event.print ("Project package found: "
            ++ (resolved env flags projectDir w).1.Name ++ ".\n")]
      ++ (importSetOf flags (resolved env flags projectDir w).1).map Event.confImport
      ++ [Event.print
          "Loading program...\nWarnings may appear here, just ignore them if hexya-generate doesn't crash.\n"],
      rest, ?_⟩
    rw [hlog, hres]
    simp [synthesisEvents, tolerantLoad, poolDirOf]
  rcases run_cases env flags projectDir w with
    ⟨msg, hs, _, _, hlog⟩ | ⟨hs, he, _, _, hlog⟩ | ⟨hs, he, e, hr, _, _, hlog⟩ |
    ⟨hs, he, hr, msg, hg, _, _, hlog⟩ | ⟨hs, he, hr, hg, e, hl, _, _, hlog⟩ |
    ⟨hs, he, hr, hg, hl, _, _, hlog⟩
  · rw [hlog] at hload; simp [stagingEvents] at hload
  · rw [hlog] at hload; simp [stagingEvents] at hload
  · rw [hlog] at hload; simp [stagingEvents, resolveEvents] at hload
  · apply key [] (by rw [hlog]; simp)
    · left; rw [hlog] at hload; exact hload
    · simp
  · apply key (validationEvents env flags projectDir w
        ++ [Event.print ("FAIL " ++ e ++ "\n"), Event.exit 1])
      (by rw [hlog]; simp only [List.append_assoc])
    · rw [hlog] at hload
      simp only [List.append_assoc, List.mem_append] at hload ⊢
      tauto
    · simp [validationEvents]
  · apply key (validationEvents env flags projectDir w
        ++ [Event.print "Ok\n", Event.print "Pool generated successfully\n"])
      (by rw [hlog]; simp only [List.append_assoc])
    · rw [hlog] at hload
      simp only [List.append_assoc, List.mem_append] at hload ⊢
      tauto
    · simp [validationEvents]

set_option maxRecDepth 100000 in
/-- C9 at a concrete input: the tolerant load reports type errors and the
run still calls `generate.CreatePool` and ends successfully. -/
theorem C9_tolerant_load_nonfatal_witness :
    Event.confLoad true ["a", "b", "a"] (some "type errors")
      ∈ runLog demoEnv (Flags.mk false "") "proj" demoWorld ∧
    ∃ pre post, runLog demoEnv (Flags.mk false "") "proj" demoWorld = pre ++
      [Event.confLoad true ["a", "b", "a"] (some "type errors"), Event.print "Ok\n",
       Event.print "Generating pool...",
       Event.createPool (demoEnv.load (staged demoEnv demoWorld).fs true ["a", "b", "a"]).1
         (filepathJoin [demoEnv.HexyaDir, PoolDirRel])] ++ post :=
  ⟨by decide,
   (C9_tolerant_load_nonfatal demoEnv (Flags.mk false "") "proj" demoWorld ["a", "b", "a"]
      (some "type errors") (by decide)).2⟩

/-- C10: the calls of a run, progress messages left out, are a fixed
sequence. A run with empty-pool mode off that returns normally makes, once
each and in this order: the three staging calls, `build.ImportDir`, the
`conf.Import` calls, the tolerant `conf.Load`, `generate.CreatePool`, and the
strict `conf.Load` over the same import set. A run whose `build.ImportDir`
fails makes the staging calls and that call, and nothing after it. A run
whose strict load fails makes the same calls as a successful one up to the
strict load, then only `os.Exit(1)`. -/
theorem C10_linear_pipeline {P : Type} (env : Env P) (flags : Flags)
    (projectDir : String) (w : World P) :
    (flags.generateEmptyPool = false →
      (runGenerate env flags projectDir w).2 = Outcome.returned →
      (runLog env flags projectDir w).filter Event.isCall
        = stagingEvents env w
          ++ [Event.importDir (targetDirOf flags projectDir (staged env w).fs) 0 none]
          ++ (importSetOf flags (resolved env flags projectDir w).1).map Event.confImport
          ++ [Event.confLoad true (importSetOf flags (resolved env flags projectDir w).1)
                (tolerantLoad env flags projectDir w).2,
              Event.createPool (tolerantLoad env flags projectDir w).1
                (filepathJoin [env.HexyaDir, PoolDirRel]),
              Event.confLoad false (importSetOf flags (resolved env flags projectDir w).1)
                none]) ∧
    (∀ dir mode err,
      Event.importDir dir mode (some err) ∈ runLog env flags projectDir w →
      (runLog env flags projectDir w).filter Event.isCall
        = stagingEvents env w ++ [Event.importDir dir mode (some err)]) ∧
    (∀ imps err,
      Event.confLoad false imps (some err) ∈ runLog env flags projectDir w →
      (runLog env flags projectDir w).filter Event.isCall
        = stagingEvents env w
          ++ [Event.importDir (targetDirOf flags projectDir (staged env w).fs) 0 none]
          ++ imps.map Event.confImport
          ++ [Event.confLoad true imps (tolerantLoad env flags projectDir w).2,
              Event.createPool (tolerantLoad env flags projectDir w).1
                (filepathJoin [env.HexyaDir, PoolDirRel]),
              Event.confLoad false imps (some err),
              Event.exit 1]) := by
  refine ⟨?_, ?_, ?_⟩
  · intro h1 h2
    rcases run_cases env flags projectDir w with
      ⟨msg, hs, hout, _, hlog⟩ | ⟨hs, he, hout, _, hlog⟩ | ⟨hs, he, e, hr, hout, _, hlog⟩ |
      ⟨hs, he, hr, msg, hg, hout, _, hlog⟩ | ⟨hs, he, hr, hg, e, hl, hout, _, hlog⟩ |
      ⟨hs, he, hr, hg, hl, hout, _, hlog⟩
    · rw [hout] at h2; exact Outcome.noConfusion h2
    · rw [he] at h1; exact Bool.noConfusion h1
    · rw [hout] at h2; exact Outcome.noConfusion h2
    · rw [hout] at h2; exact Outcome.noConfusion h2
    · rw [hout] at h2; exact Outcome.noConfusion h2
    · rw [hlog]
      simp only [List.filter_append, filter_isCall_staging]
      simp [resolveEvents, synthesisEvents, validationEvents, Event.isCall, filter_isCall_map,
        List.filter_append, hr, hl, poolDirOf]
  · intro dir mode err hmem
    rcases run_cases env flags projectDir w with
      ⟨msg, hs, hout, _, hlog⟩ | ⟨hs, he, hout, _, hlog⟩ | ⟨hs, he, e, hr, hout, _, hlog⟩ |
      ⟨hs, he, hr, msg, hg, hout, _, hlog⟩ | ⟨hs, he, hr, hg, e, hl, hout, _, hlog⟩ |
      ⟨hs, he, hr, hg, hl, hout, _, hlog⟩
    · rw [hlog] at hmem; simp [stagingEvents] at hmem
    · rw [hlog] at hmem; simp [stagingEvents] at hmem
    · rw [hlog] at hmem ⊢
      simp [stagingEvents, resolveEvents, hr] at hmem
      obtain ⟨hd, hm, hee⟩ := hmem
      simp only [List.filter_append, filter_isCall_staging]
      simp [resolveEvents, Event.isCall, hr, hd, hm, hee]
    · rw [hlog] at hmem
      simp [stagingEvents, resolveEvents, synthesisEvents, hr] at hmem
    · rw [hlog] at hmem
      simp [stagingEvents, resolveEvents, synthesisEvents, validationEvents, hr] at hmem
    · rw [hlog] at hmem
      simp [stagingEvents, resolveEvents, synthesisEvents, validationEvents, hr] at hmem
  · intro imps err hmem
    rcases run_cases env flags projectDir w with
      ⟨msg, hs, hout, _, hlog⟩ | ⟨hs, he, hout, _, hlog⟩ | ⟨hs, he, e, hr, hout, _, hlog⟩ |
      ⟨hs, he, hr, msg, hg, hout, _, hlog⟩ | ⟨hs, he, hr, hg, e, hl, hout, _, hlog⟩ |
      ⟨hs, he, hr, hg, hl, hout, _, hlog⟩
    · rw [hlog] at hmem; simp [stagingEvents] at hmem
    · rw [hlog] at hmem; simp [stagingEvents] at hmem
    · rw [hlog] at hmem; simp [stagingEvents, resolveEvents] at hmem
    · rw [hlog] at hmem; simp [stagingEvents, resolveEvents, synthesisEvents] at hmem
    · rw [hlog] at hmem ⊢
      simp [stagingEvents, resolveEvents, synthesisEvents, validationEvents, hl] at hmem
      obtain ⟨himp, hee⟩ := hmem
      subst himp
      simp only [List.filter_append, filter_isCall_staging]
      simp [resolveEvents, synthesisEvents, validationEvents, Event.isCall, filter_isCall_map,
        List.filter_append, hr, hl, hee, poolDirOf]
    · rw [hlog] at hmem
      simp [stagingEvents, resolveEvents, synthesisEvents, validationEvents, hl] at hmem

set_option maxRecDepth 100000 in
/-- C10 at a concrete input: the calls of a successful run, in order. -/
theorem C10_linear_pipeline_witness :
    (Flags.mk false "").generateEmptyPool = false ∧
    (runGenerate demoEnv (Flags.mk false "") "proj" demoWorld).2 = Outcome.returned ∧
    (runLog demoEnv (Flags.mk false "") "proj" demoWorld).filter Event.isCall
      = [Event.removeAll "/h/pool" none,
         Event.mkdirAll "/h/pool" 0o755 none,
         Event.createFile "/h/pool/temp.go" emptyPoolTemplate none,
         Event.importDir "proj/config" 0 none,
         Event.confImport "a", Event.confImport "b", Event.confImport "a",
         Event.confLoad true ["a", "b", "a"] (some "type errors"),
         Event.createPool (some 7) "/h/pool",
         Event.confLoad false ["a", "b", "a"] none] :=
  ⟨rfl, by decide,
   ((C10_linear_pipeline demoEnv (Flags.mk false "") "proj" demoWorld).1 rfl
      (by decide)).trans (by decide)⟩

end Hexya
